import Mathlib

/-!
Verification development for the concrete-ml quantization / FHE model layer.

The repository sources contain the `KNeighborsClassifier` wrapper
(`src/concrete/ml/sklearn/neighbors.py`) and the linear-model test file.
The quantizer, the calibration procedure, the model lifecycle controller and
the neighbor prediction pipeline live outside the provided sources; those
parts are modelled from the specification (sections 4.1-4.4), and every such
definition carries a doc comment starting with `Modelled from the spec:`.
Real numbers are embedded as rationals so every definition is executable.
-/

/-- Modelled from the spec: (section 3) `QuantizationParams` record
{ bit_width, scale, zero_point, is_signed, is_symmetric }. -/
structure QuantizationParams where
  bit_width : Nat
  scale : ℚ
  zero_point : Int
  is_signed : Bool
  is_symmetric : Bool
deriving DecidableEq

/-- Modelled from the spec: the smallest representable quantized integer,
`0` for unsigned and `-2^(bit_width-1)` for signed parameters. -/
def QuantizationParams.qmin (qp : QuantizationParams) : Int :=
  if qp.is_signed then -(2 ^ (qp.bit_width - 1) : Int) else 0

/-- Modelled from the spec: the largest representable quantized integer,
`2^bit_width - 1` for unsigned and `2^(bit_width-1) - 1` for signed. -/
def QuantizationParams.qmax (qp : QuantizationParams) : Int :=
  if qp.is_signed then (2 ^ (qp.bit_width - 1) : Int) - 1 else (2 ^ qp.bit_width : Int) - 1

/-- Saturating clip of `v` into the interval `[lo, hi]`. -/
def clip (lo hi v : Int) : Int := max lo (min hi v)

/-- Modelled from the spec: (section 4.1) `quantize(x) = round(x/scale) + zero_point`,
clipped to the representable range of `bit_width` bits. -/
def quantize (qp : QuantizationParams) (x : ℚ) : Int :=
  clip qp.qmin qp.qmax (round (x / qp.scale) + qp.zero_point)

/-- Modelled from the spec: (section 4.1) `dequantize(q) = (q - zero_point) * scale`. -/
def dequantize (qp : QuantizationParams) (q : Int) : ℚ :=
  ((q - qp.zero_point : Int) : ℚ) * qp.scale

/-- Modelled from the spec: (section 7) the error taxonomy of the library. -/
inductive MLError where
  | NotFittedError
  | NotCompiledError
  | CalibrationError
  | BitWidthOverflowError
  | UnsupportedOperationError
deriving DecidableEq

/-- Minimum of a list of rationals (`0` on the empty list; calibration
rejects empty sample lists before using it). -/
def listMin : List ℚ → ℚ
  | [] => 0
  | x :: xs => xs.foldl min x

/-- Maximum of a list of rationals (`0` on the empty list). -/
def listMax : List ℚ → ℚ
  | [] => 0
  | x :: xs => xs.foldl max x

/-- Modelled from the spec: (section 4.1) `calibrate` computes min/max over the
samples and derives `scale = (max-min)/(2^bit_width - 1)` and a zero point so
that `min` maps to the lowest representable integer.  Insufficient data (an
empty sample list) and a `bit_width` outside the documented 1..32 range fail
with `CalibrationError`; on a zero range (all samples identical) the stated
policy is applied: fall back to `scale = 1` so no division by zero occurs. -/
def calibrate (bit_width : Nat) (signed symmetric : Bool) (samples : List ℚ) :
    Except MLError QuantizationParams :=
  if samples.isEmpty then .error .CalibrationError
  else if bit_width < 1 || 32 < bit_width then .error .CalibrationError
  else
    let rmin := listMin samples
    let rmax := listMax samples
    let scale : ℚ := if rmax = rmin then 1 else (rmax - rmin) / ((2 : ℚ) ^ bit_width - 1)
    let zero_point : Int :=
      (if signed then -(2 ^ (bit_width - 1) : Int) else 0) - round (rmin / scale)
    .ok ⟨bit_width, scale, zero_point, signed, symmetric⟩

example : calibrate 3 false false [0, 7] = .ok ⟨3, 1, 0, false, false⟩ := by
  with_unfolding_all rfl
example : calibrate 8 false false [3, 3, 3] = .ok ⟨8, 1, -3, false, false⟩ := by
  with_unfolding_all rfl
example : quantize ⟨3, 1, 0, false, false⟩ (17/5) = 3 := by with_unfolding_all rfl
example : dequantize ⟨3, 1, 0, false, false⟩ 3 = 3 := by with_unfolding_all rfl

theorem clip_eq_self {lo hi v : Int} (h1 : lo ≤ v) (h2 : v ≤ hi) : clip lo hi v = v := by
  unfold clip
  rw [min_eq_right h2, max_eq_right h1]

theorem round_le_of_le {x y : ℚ} (h : x ≤ y) : round x ≤ round y := by
  rw [round_eq, round_eq]
  exact Int.floor_le_floor (by linarith)

theorem foldl_min_const {x : ℚ} : ∀ (xs : List ℚ), (∀ y ∈ xs, y = x) → xs.foldl min x = x
  | [], _ => rfl
  | z :: zs, h => by
    have hz : z = x := h z (by simp)
    have := foldl_min_const zs (fun y hy => h y (by simp [hy]))
    simp [hz, this]

theorem foldl_max_const {x : ℚ} : ∀ (xs : List ℚ), (∀ y ∈ xs, y = x) → xs.foldl max x = x
  | [], _ => rfl
  | z :: zs, h => by
    have hz : z = x := h z (by simp)
    have := foldl_max_const zs (fun y hy => h y (by simp [hy]))
    simp [hz, this]

theorem listMin_const {x : ℚ} {xs : List ℚ} (hne : xs ≠ []) (h : ∀ y ∈ xs, y = x) :
    listMin xs = x := by
  cases xs with
  | nil => exact absurd rfl hne
  | cons z zs =>
    have hz : z = x := h z (by simp)
    subst hz
    exact foldl_min_const zs (fun y hy => h y (by simp [hy]))

theorem listMax_const {x : ℚ} {xs : List ℚ} (hne : xs ≠ []) (h : ∀ y ∈ xs, y = x) :
    listMax xs = x := by
  cases xs with
  | nil => exact absurd rfl hne
  | cons z zs =>
    have hz : z = x := h z (by simp)
    subst hz
    exact foldl_max_const zs (fun y hy => h y (by simp [hy]))

/-- Claim C4: for every Quantizer, `quantize x` is exactly `round(x/scale) + zero_point`
clipped to `[0, 2^bit_width - 1]` (or the signed equivalent), so the result is always an
integer representable in `bit_width` bits; and for every representable integer `q`,
`dequantize q = (q - zero_point) * scale` is inverted exactly by `quantize` (no clipping
occurs for representable `q`, given a positive scale). -/
theorem C4_quantize_clips_and_dequantize_inverts :
    ∀ (qp : QuantizationParams) (x : ℚ) (q : Int),
      quantize qp x = clip qp.qmin qp.qmax (round (x / qp.scale) + qp.zero_point) ∧
      (qp.qmin ≤ quantize qp x ∧ quantize qp x ≤ qp.qmax) ∧
      (0 < qp.scale → qp.qmin ≤ q → q ≤ qp.qmax → quantize qp (dequantize qp q) = q) := by
  intro qp x q
  have hminmax : qp.qmin ≤ qp.qmax := by
    unfold QuantizationParams.qmin QuantizationParams.qmax
    split
    · have h1 : (0:Int) < 2 ^ (qp.bit_width - 1) := pow_pos (by norm_num) _
      linarith
    · have h1 : (0:Int) < 2 ^ qp.bit_width := pow_pos (by norm_num) _
      linarith
  refine ⟨rfl, ⟨le_max_left _ _, max_le hminmax (min_le_left _ _)⟩, ?_⟩
  intro hs h1 h2
  have hsne : qp.scale ≠ 0 := ne_of_gt hs
  unfold quantize dequantize
  rw [mul_div_cancel_right₀ _ hsne, round_intCast, sub_add_cancel]
  exact clip_eq_self h1 h2

/-- Closed witness for C4 at a concrete quantizer, input and representable value. -/
theorem C4_witness :
    quantize ⟨3, 1, 0, false, false⟩ (dequantize ⟨3, 1, 0, false, false⟩ 5) = 5 :=
  (C4_quantize_clips_and_dequantize_inverts ⟨3, 1, 0, false, false⟩ 0 5).2.2
    (by with_unfolding_all decide) (by decide) (by decide)

theorem qmin_le_qmax (qp : QuantizationParams) : qp.qmin ≤ qp.qmax := by
  unfold QuantizationParams.qmin QuantizationParams.qmax
  split
  · have h1 : (0:Int) < 2 ^ (qp.bit_width - 1) := pow_pos (by norm_num) _
    linarith
  · have h1 : (0:Int) < 2 ^ qp.bit_width := pow_pos (by norm_num) _
    linarith

/-- Claim C3: for every calibrated Quantizer and every input inside the calibrated
range, `dequantize (quantize x)` differs from `x` by at most `scale/2` (hence by at
most one `scale` unit). -/
theorem C3_calibrated_roundtrip_error_at_most_half_scale :
    ∀ (b : Nat) (sgn sym : Bool) (samples : List ℚ) (qp : QuantizationParams) (x : ℚ),
      calibrate b sgn sym samples = .ok qp →
      listMin samples ≤ x → x ≤ listMax samples →
      |dequantize qp (quantize qp x) - x| ≤ qp.scale / 2 := by
  intro b sgn sym samples qp x hcal hlo hhi
  unfold calibrate at hcal
  by_cases he : samples.isEmpty
  · rw [if_pos he] at hcal; exact absurd hcal (by simp)
  rw [if_neg he] at hcal
  by_cases hb : (decide (b < 1) || decide (32 < b)) = true
  · rw [if_pos hb] at hcal; exact absurd hcal (by simp)
  rw [if_neg hb] at hcal
  have hb1 : 1 ≤ b := by simp at hb; omega
  set rmin := listMin samples with hrmin
  set rmax := listMax samples with hrmax
  cases hcal
  by_cases hdeg : rmax = rmin
  · -- degenerate range: the fallback scale 1 is used
    have hx : x = rmin := le_antisymm (hdeg ▸ hhi) hlo
    subst hx
    simp only [quantize, dequantize, if_pos hdeg, div_one]
    set off : ℤ := if sgn = true then -2 ^ (b - 1) else 0 with hoffdef
    have harg : round rmin + (off - round rmin) = off := by omega
    rw [harg]
    have hqmin : ({ bit_width := b, scale := 1, zero_point := off - round rmin,
                    is_signed := sgn, is_symmetric := sym } : QuantizationParams).qmin = off := by
      unfold QuantizationParams.qmin
      rfl
    have h2 : off ≤ ({ bit_width := b, scale := 1, zero_point := off - round rmin,
                       is_signed := sgn, is_symmetric := sym } : QuantizationParams).qmax :=
      hqmin ▸ qmin_le_qmax _
    rw [clip_eq_self (le_of_eq hqmin) h2]
    have hsub : off - (off - round rmin) = round rmin := by omega
    rw [hsub, mul_one, abs_sub_comm]
    exact abs_sub_round rmin
  · simp only [quantize, dequantize, if_neg hdeg]
    set S : ℚ := (rmax - rmin) / (2 ^ b - 1) with hSdef
    set off : ℤ := if sgn = true then -2 ^ (b - 1) else 0 with hoffdef
    have hle : rmin ≤ rmax := le_trans hlo hhi
    have hlt : rmin < rmax := lt_of_le_of_ne hle (fun h => hdeg h.symm)
    have h2b : (2:ℚ) ≤ 2 ^ b := by
      calc (2:ℚ) = 2 ^ 1 := (pow_one 2).symm
      _ ≤ 2 ^ b := by apply pow_le_pow_right₀ (by norm_num) hb1
    have hD : (0:ℚ) < 2 ^ b - 1 := by linarith
    have hS : 0 < S := div_pos (by linarith) hD
    have hSne : S ≠ 0 := ne_of_gt hS
    have hsubne : rmax - rmin ≠ 0 := sub_ne_zero_of_ne hdeg
    have hfrac : (rmax - rmin) / S = 2 ^ b - 1 := by
      rw [hSdef, div_div_eq_mul_div, mul_comm, mul_div_assoc, div_self hsubne, mul_one]
    have hkey : rmax / S = rmin / S + ((2 ^ b - 1 : ℤ) : ℚ) := by
      have h1 : rmax / S - rmin / S = 2 ^ b - 1 := by rw [div_sub_div_same, hfrac]
      push_cast
      linarith
    have hru : round (rmax / S) = round (rmin / S) + (2 ^ b - 1 : ℤ) := by
      rw [hkey, round_add_int]
    have hm1 : round (rmin / S) ≤ round (x / S) := round_le_of_le (by gcongr)
    have hm2 : round (x / S) ≤ round (rmax / S) := round_le_of_le (by gcongr)
    have hqmin : ({ bit_width := b, scale := S, zero_point := off - round (rmin / S),
                    is_signed := sgn, is_symmetric := sym } : QuantizationParams).qmin = off := by
      unfold QuantizationParams.qmin
      rfl
    have hqmax : ({ bit_width := b, scale := S, zero_point := off - round (rmin / S),
                    is_signed := sgn, is_symmetric := sym } : QuantizationParams).qmax =
        off + 2 ^ b - 1 := by
      have hpow : (2:ℤ) ^ b = 2 ^ (b - 1) * 2 := by
        conv_lhs => rw [show b = (b - 1) + 1 by omega]
        rw [pow_succ]
      unfold QuantizationParams.qmax
      rw [hoffdef]
      cases sgn
      · simp
      · simp
        linarith [hpow]
    have hlo2 : ({ bit_width := b, scale := S, zero_point := off - round (rmin / S),
                   is_signed := sgn, is_symmetric := sym } : QuantizationParams).qmin ≤
        round (x / S) + (off - round (rmin / S)) := by
      rw [hqmin]
      omega
    have hhi2 : round (x / S) + (off - round (rmin / S)) ≤
        ({ bit_width := b, scale := S, zero_point := off - round (rmin / S),
           is_signed := sgn, is_symmetric := sym } : QuantizationParams).qmax := by
      rw [hqmax]
      omega
    rw [clip_eq_self hlo2 hhi2]
    have hred : round (x / S) + (off - round (rmin / S)) - (off - round (rmin / S)) =
        round (x / S) := by omega
    rw [hred]
    have hx : x / S * S = x := div_mul_cancel₀ x hSne
    calc |(round (x / S) : ℚ) * S - x| = |((round (x / S) : ℚ) - x / S) * S| := by
          rw [sub_mul, hx]
      _ = |(round (x / S) : ℚ) - x / S| * |S| := abs_mul _ _
      _ = |(round (x / S) : ℚ) - x / S| * S := by rw [abs_of_pos hS]
      _ ≤ 1 / 2 * S := by
          apply mul_le_mul_of_nonneg_right _ (le_of_lt hS)
          rw [abs_sub_comm]
          exact abs_sub_round _
      _ = S / 2 := by ring

/-- Closed witness for C3: a concrete 3-bit calibration on samples `[0, 7]` and the
in-range input `17/5`. -/
theorem C3_witness :
    |dequantize ⟨3, 1, 0, false, false⟩ (quantize ⟨3, 1, 0, false, false⟩ (17/5)) - 17/5| ≤
      (⟨3, 1, 0, false, false⟩ : QuantizationParams).scale / 2 :=
  C3_calibrated_roundtrip_error_at_most_half_scale 3 false false [0, 7]
    ⟨3, 1, 0, false, false⟩ (17/5) (by with_unfolding_all rfl)
    (by with_unfolding_all decide) (by with_unfolding_all decide)

/-- Counterexample for C5: on all-identical samples `[3, 3, 3]` the calibration does
not fail with `CalibrationError`; it succeeds, applying the fallback `scale = 1`. -/
theorem C5_counterexample_no_calibration_failure :
    calibrate 8 false false [3, 3, 3] ≠ .error .CalibrationError ∧
    calibrate 8 false false [3, 3, 3] = .ok ⟨8, 1, -3, false, false⟩ := by
  constructor
  · intro h
    rw [show calibrate 8 false false [3, 3, 3] = .ok ⟨8, 1, -3, false, false⟩ from by
      with_unfolding_all rfl] at h
    exact Except.noConfusion h
  · with_unfolding_all rfl

/-- Claim C5 (amended): when `calibrate` is given a nonempty list of all-identical
samples (zero range) and a legal bit width, it does not fail: it applies the stated
policy and falls back to `scale = 1`, so no division by zero occurs. -/
theorem C5_amended_degenerate_calibration_falls_back_to_scale_one :
    ∀ (b : Nat) (sgn sym : Bool) (x : ℚ) (samples : List ℚ),
      samples ≠ [] → (∀ y ∈ samples, y = x) → 1 ≤ b → b ≤ 32 →
      calibrate b sgn sym samples =
        .ok ⟨b, 1, (if sgn then -(2 ^ (b - 1) : Int) else 0) - round x, sgn, sym⟩ := by
  intro b sgn sym x samples hne hall hb1 hb2
  unfold calibrate
  rw [if_neg (by simpa [List.isEmpty_iff] using hne)]
  rw [if_neg (by simp only [Bool.or_eq_true, decide_eq_true_eq, not_or]; omega)]
  simp only [listMin_const hne hall, listMax_const hne hall, if_pos rfl, if_true, div_one]

/-- Closed witness for C5 (amended claim) at the concrete samples `[3, 3, 3]`. -/
theorem C5_witness :
    calibrate 8 false false [3, 3, 3] = .ok ⟨8, 1, 0 - round (3:ℚ), false, false⟩ :=
  C5_amended_degenerate_calibration_falls_back_to_scale_one 8 false false 3 [3, 3, 3]
    (by simp) (by with_unfolding_all decide) (by norm_num) (by norm_num)

/-- Modelled from the spec: the fitted scikit-learn estimator object stored on the
wrapper (`self.sklearn_model`).  Only the part the neighbor prediction pipeline
reads — the training labels — is represented; `dump_dict`/`load_dict` move it
wholesale. -/
structure SkKNNModel where
  y_labels : List Nat
deriving DecidableEq

/-- Modelled from the spec: (section 3) the model-kind-specific post-processing
record, moved wholesale by `dump_dict`/`load_dict`. -/
structure PostProcessingParams where
  entries : List (String × ℚ)
deriving DecidableEq

/-- The state of a `KNeighborsClassifier` wrapper
(`src/concrete/ml/sklearn/neighbors.py`): every instance attribute that
`dump_dict` serializes — the Concrete-ML fitted state plus the scikit-learn
constructor hyperparameters set in `__init__`.  The two class-level constants
(`cml_dumped_class_name`, `sklearn_model_class`) are not instance state. -/
structure KNeighborsClassifierModel where
  n_bits : Nat
  sklearn_model : SkKNNModel
  _is_fitted : Bool
  _is_compiled : Bool
  input_quantizers : List QuantizationParams
  _weight_quantizer : Option QuantizationParams
  _q_X_fit_quantizer : Option QuantizationParams
  _q_X_fit : List (List Int)
  output_quantizers : List QuantizationParams
  onnx_model_ : Nat
  post_processing_params : PostProcessingParams
  n_neighbors : Nat
  algorithm : String
  weights : String
  leaf_size : Nat
  p : Nat
  metric : String
  metric_params : Option Nat
  n_jobs : Option Int
deriving DecidableEq

/-- A value stored in the flat serialization mapping produced by `dump_dict`
(Python metadata dict values are heterogeneous; this sum covers the types of
the 21 stored fields). -/
inductive MetaVal where
  | vNat (n : Nat)
  | vBool (b : Bool)
  | vStr (s : String)
  | vSk (m : SkKNNModel)
  | vQuantList (qs : List QuantizationParams)
  | vQuantOpt (q : Option QuantizationParams)
  | vMatrix (rows : List (List Int))
  | vPP (pp : PostProcessingParams)
  | vOptNat (o : Option Nat)
  | vOptInt (o : Option Int)
deriving DecidableEq

def MetaVal.asNat : MetaVal → Option Nat
  | .vNat n => some n
  | _ => none

def MetaVal.asBool : MetaVal → Option Bool
  | .vBool b => some b
  | _ => none

def MetaVal.asStr : MetaVal → Option String
  | .vStr s => some s
  | _ => none

def MetaVal.asSk : MetaVal → Option SkKNNModel
  | .vSk m => some m
  | _ => none

def MetaVal.asQuantList : MetaVal → Option (List QuantizationParams)
  | .vQuantList qs => some qs
  | _ => none

def MetaVal.asQuantOpt : MetaVal → Option (Option QuantizationParams)
  | .vQuantOpt q => some q
  | _ => none

def MetaVal.asMatrix : MetaVal → Option (List (List Int))
  | .vMatrix rows => some rows
  | _ => none

def MetaVal.asPP : MetaVal → Option PostProcessingParams
  | .vPP pp => some pp
  | _ => none

def MetaVal.asOptNat : MetaVal → Option (Option Nat)
  | .vOptNat o => some o
  | _ => none

def MetaVal.asOptInt : MetaVal → Option (Option Int)
  | .vOptInt o => some o
  | _ => none

/-- `KNeighborsClassifier()` constructed with all-default hyperparameters
(`__init__`, lines 29-52: `n_bits=8, n_neighbors=5, weights="uniform",
algorithm="auto", leaf_size=30, p=2, metric="minkowski", metric_params=None,
n_jobs=None`); the base mixin starts the fitted state empty. -/
def defaultKNeighborsClassifier : KNeighborsClassifierModel :=
  { n_bits := 8, sklearn_model := ⟨[]⟩, _is_fitted := false, _is_compiled := false,
    input_quantizers := [], _weight_quantizer := none, _q_X_fit_quantizer := none,
    _q_X_fit := [], output_quantizers := [], onnx_model_ := 0,
    post_processing_params := ⟨[]⟩, n_neighbors := 5, algorithm := "auto",
    weights := "uniform", leaf_size := 30, p := 2, metric := "minkowski",
    metric_params := none, n_jobs := none }

/-- Modelled from the spec: the base mixin's `_is_not_fitted_error_message` is not
under src/; the message contents are irrelevant here, only that the assertion in
`dump_dict` carries it. -/
def _is_not_fitted_error_message (_m : KNeighborsClassifierModel) : String :=
  "The model is not fitted."

/-- `KNeighborsClassifier.dump_dict` (source lines 54-85): asserts the model is
fitted (`_weight_quantizer is not None`) and returns the flat metadata mapping,
keys in the source's insertion order. -/
def dump_dict (m : KNeighborsClassifierModel) : Except String (List (String × MetaVal)) :=
  if m._weight_quantizer = none then .error ( _is_not_fitted_error_message m)
  else .ok [
    ("n_bits", .vNat m.n_bits),
    ("sklearn_model", .vSk m.sklearn_model),
    ("_is_fitted", .vBool m._is_fitted),
    ("_is_compiled", .vBool m._is_compiled),
    ("input_quantizers", .vQuantList m.input_quantizers),
    ("_weight_quantizer", .vQuantOpt m._weight_quantizer),
    ("_q_X_fit_quantizer", .vQuantOpt m._q_X_fit_quantizer),
    ("_q_X_fit", .vMatrix m._q_X_fit),
    ("output_quantizers", .vQuantList m.output_quantizers),
    ("onnx_model_", .vNat m.onnx_model_),
    ("post_processing_params", .vPP m.post_processing_params),
    ("cml_dumped_class_name", .vStr "KNeighborsClassifier"),
    ("sklearn_model_class", .vStr "sklearn.neighbors.KNeighborsClassifier"),
    ("n_neighbors", .vNat m.n_neighbors),
    ("algorithm", .vStr m.algorithm),
    ("weights", .vStr m.weights),
    ("leaf_size", .vNat m.leaf_size),
    ("p", .vNat m.p),
    ("metric", .vStr m.metric),
    ("metric_params", .vOptNat m.metric_params),
    ("n_jobs", .vOptInt m.n_jobs)]

/-- `KNeighborsClassifier.load_dict` (source lines 87-116): instantiate
`KNeighborsClassifier()` with default hyperparameters, then assign each stored
field read from the mapping — in the source's order, which never assigns
`leaf_size`.  A missing key is Python's `KeyError`, here `none`. -/
def load_dict (metadata : List (String × MetaVal)) : Option KNeighborsClassifierModel :=
  match (metadata.lookup "n_bits").bind MetaVal.asNat with
  | none => none
  | some n_bits =>
  match (metadata.lookup "sklearn_model").bind MetaVal.asSk with
  | none => none
  | some sklearn_model =>
  match (metadata.lookup "_is_fitted").bind MetaVal.asBool with
  | none => none
  | some is_fitted =>
  match (metadata.lookup "_is_compiled").bind MetaVal.asBool with
  | none => none
  | some is_compiled =>
  match (metadata.lookup "input_quantizers").bind MetaVal.asQuantList with
  | none => none
  | some input_quantizers =>
  match (metadata.lookup "output_quantizers").bind MetaVal.asQuantList with
  | none => none
  | some output_quantizers =>
  match (metadata.lookup "_weight_quantizer").bind MetaVal.asQuantOpt with
  | none => none
  | some weight_quantizer =>
  match (metadata.lookup "_q_X_fit_quantizer").bind MetaVal.asQuantOpt with
  | none => none
  | some q_X_fit_quantizer =>
  match (metadata.lookup "_q_X_fit").bind MetaVal.asMatrix with
  | none => none
  | some q_X_fit =>
  match (metadata.lookup "onnx_model_").bind MetaVal.asNat with
  | none => none
  | some onnx_model =>
  match (metadata.lookup "post_processing_params").bind MetaVal.asPP with
  | none => none
  | some post_processing =>
  match (metadata.lookup "n_neighbors").bind MetaVal.asNat with
  | none => none
  | some n_neighbors =>
  match (metadata.lookup "weights").bind MetaVal.asStr with
  | none => none
  | some weights =>
  match (metadata.lookup "algorithm").bind MetaVal.asStr with
  | none => none
  | some algorithm =>
  match (metadata.lookup "p").bind MetaVal.asNat with
  | none => none
  | some p =>
  match (metadata.lookup "metric").bind MetaVal.asStr with
  | none => none
  | some metric =>
  match (metadata.lookup "metric_params").bind MetaVal.asOptNat with
  | none => none
  | some metric_params =>
  match (metadata.lookup "n_jobs").bind MetaVal.asOptInt with
  | none => none
  | some n_jobs =>
  some { defaultKNeighborsClassifier with
    n_bits := n_bits, sklearn_model := sklearn_model, _is_fitted := is_fitted,
    _is_compiled := is_compiled, input_quantizers := input_quantizers,
    output_quantizers := output_quantizers, _weight_quantizer := weight_quantizer,
    _q_X_fit_quantizer := q_X_fit_quantizer, _q_X_fit := q_X_fit,
    onnx_model_ := onnx_model, post_processing_params := post_processing,
    n_neighbors := n_neighbors, weights := weights, algorithm := algorithm,
    p := p, metric := metric, metric_params := metric_params, n_jobs := n_jobs }

/-- Serialization round trip: `load(dump(m))`. -/
def roundTrip (m : KNeighborsClassifierModel) : Option KNeighborsClassifierModel :=
  match dump_dict m with
  | .ok md => load_dict md
  | .error _ => none

/-- Modelled from the spec: (section 4.2) quantize a query row feature-by-feature
with the model's per-feature input quantizers. -/
def quantizeRow (iqs : List QuantizationParams) (row : List ℚ) : List Int :=
  (iqs.zip row).map fun pr => quantize pr.1 pr.2

/-- Modelled from the spec: (section 4.2) squared Euclidean distance evaluated
over quantized integers. -/
def sqDist (a b : List Int) : Int :=
  ((a.zip b).map fun pr => (pr.1 - pr.2) ^ 2).sum

/-- Modelled from the spec: integer distances from the quantized query to every
row of the quantized fit-time reference set `_q_X_fit`. -/
def knnDistances (m : KNeighborsClassifierModel) (x : List ℚ) : List Int :=
  m._q_X_fit.map fun r => sqDist r (quantizeRow m.input_quantizers x)

/-- The stable comparison used for top-k selection: by distance first, ties by
original dataset index (first occurrence wins). -/
def distIdxLe (d : Nat → Int) (a b : Nat) : Prop :=
  d a < d b ∨ (d a = d b ∧ a ≤ b)

instance (d : Nat → Int) : DecidableRel (distIdxLe d) := fun _a _b =>
  inferInstanceAs (Decidable (_ ∨ _))

instance (d : Nat → Int) : IsTotal Nat (distIdxLe d) where
  total a b := by
    unfold distIdxLe
    rcases lt_trichotomy (d a) (d b) with h | h | h
    · exact .inl (.inl h)
    · rcases le_total a b with hab | hab
      · exact .inl (.inr ⟨h, hab⟩)
      · exact .inr (.inr ⟨h.symm, hab⟩)
    · exact .inr (.inl h)

instance (d : Nat → Int) : IsTrans Nat (distIdxLe d) where
  trans _a _b _c hab hbc := by
    unfold distIdxLe at *
    rcases hab with h1 | ⟨h1, h1'⟩ <;> rcases hbc with h2 | ⟨h2, h2'⟩
    · exact .inl (lt_trans h1 h2)
    · exact .inl (h2 ▸ h1)
    · exact .inl (h1 ▸ h2)
    · exact .inr ⟨h1.trans h2, le_trans h1' h2'⟩

/-- Modelled from the spec: (sections 4.2, 4.3) top-k selection over the integer
distances: indices `0..n-1` sorted stably by (distance, index), first `k` kept. -/
def topkIdx (d : Nat → Int) (n k : Nat) : List Nat :=
  (List.insertionSort (distIdxLe d) (List.range n)).take k

/-- Modelled from the spec: (section 4.3) majority vote — the smallest label with
the maximal number of votes (the reference library's bincount/argmax behavior). -/
def voteWinner (ls : List Nat) : Nat :=
  (List.range (ls.foldr max 0 + 1)).foldl
    (fun best c => if ls.count best < ls.count c then c else best) 0

/-- Modelled from the spec: (sections 4.2-4.4) neighbor prediction for one query:
quantize the query, compute integer distances to the reference set, select the
`n_neighbors` nearest (ties by dataset order), majority-vote their labels. -/
def knnPredict (m : KNeighborsClassifierModel) (x : List ℚ) : Nat :=
  let ds := knnDistances m x
  let sel := topkIdx (fun i => ds.getD i 0) m._q_X_fit.length m.n_neighbors
  voteWinner (sel.map fun i => m.sklearn_model.y_labels.getD i 0)


/-- A fitted model whose `leaf_size` is 31, different from the constructor
default 30. -/
def mLeaf31 : KNeighborsClassifierModel :=
  { defaultKNeighborsClassifier with
    _is_fitted := true, _weight_quantizer := some ⟨8, 1, 0, false, false⟩,
    leaf_size := 31 }

/-- Counterexample for C1: the round trip is not the identity on the model's
full state — `mLeaf31` comes back with `leaf_size = 30`, not 31, because
`load_dict` never assigns `leaf_size`. -/
theorem C1_counterexample_full_state_lost : roundTrip mLeaf31 ≠ some mLeaf31 := by
  intro h
  have h30 : (roundTrip mLeaf31).map (fun m => m.leaf_size) = some 30 := rfl
  rw [h] at h30
  simp [mLeaf31, defaultKNeighborsClassifier] at h30

/-- Claim C1 (amended): for every fitted model (weight quantizer present),
`load_dict (dump_dict m)` reconstructs every stored field except `leaf_size`,
which resets to the constructor default 30; since prediction never reads
`leaf_size`, the reloaded model's `predict` output is bit-identical to the
original's on every fixed input. -/
theorem C1_amended_roundtrip_identity_except_leaf_size :
    ∀ (m : KNeighborsClassifierModel) (w : QuantizationParams) (x : List ℚ),
      m._weight_quantizer = some w →
      roundTrip m = some { m with leaf_size := 30 } ∧
      knnPredict { m with leaf_size := 30 } x = knnPredict m x := by
  intro m w x hw
  constructor
  · unfold roundTrip dump_dict
    rw [hw]
    rfl
  · rfl

/-- Closed witness for C1 (amended claim) at the concrete fitted model. -/
theorem C1_witness :
    roundTrip mLeaf31 = some { mLeaf31 with leaf_size := 30 } ∧
    knnPredict { mLeaf31 with leaf_size := 30 } [1, 2] = knnPredict mLeaf31 [1, 2] :=
  C1_amended_roundtrip_identity_except_leaf_size mLeaf31 ⟨8, 1, 0, false, false⟩ [1, 2] rfl

/-- Claim C2: `load_dict` copies `n_neighbors`, `weights`, `algorithm`, `p`,
`metric`, `metric_params` and `n_jobs` from the metadata mapping but never
assigns `leaf_size`: every loaded model has the constructor default 30, even
though `dump_dict` stored the original `leaf_size` under the `"leaf_size"` key. -/
theorem C2_load_dict_never_assigns_leaf_size :
    (∀ (md : List (String × MetaVal)) (m' : KNeighborsClassifierModel),
        load_dict md = some m' → m'.leaf_size = 30) ∧
    (∀ (m : KNeighborsClassifierModel) (w : QuantizationParams),
        m._weight_quantizer = some w →
        ∃ md, dump_dict m = .ok md ∧
          md.lookup "leaf_size" = some (.vNat m.leaf_size) ∧
          ∃ m', load_dict md = some m' ∧ m'.leaf_size = 30 ∧
            m'.n_neighbors = m.n_neighbors ∧ m'.weights = m.weights ∧
            m'.algorithm = m.algorithm ∧ m'.p = m.p ∧ m'.metric = m.metric ∧
            m'.metric_params = m.metric_params ∧ m'.n_jobs = m.n_jobs) := by
  constructor
  · intro md m' h
    unfold load_dict at h
    iterate 18
      split at h
      · exact Option.noConfusion h
    cases h
    rfl
  · intro m w hw
    unfold dump_dict
    rw [hw]
    rw [if_neg (by simp)]
    exact ⟨_, rfl, rfl, _, rfl, rfl, rfl, rfl, rfl, rfl, rfl, rfl, rfl⟩

/-- Closed witness for C2 at the concrete fitted model `mLeaf31` (leaf_size 31). -/
theorem C2_witness :
    ∃ md, dump_dict mLeaf31 = .ok md ∧
      md.lookup "leaf_size" = some (.vNat mLeaf31.leaf_size) ∧
      ∃ m', load_dict md = some m' ∧ m'.leaf_size = 30 ∧
        m'.n_neighbors = mLeaf31.n_neighbors ∧ m'.weights = mLeaf31.weights ∧
        m'.algorithm = mLeaf31.algorithm ∧ m'.p = mLeaf31.p ∧
        m'.metric = mLeaf31.metric ∧ m'.metric_params = mLeaf31.metric_params ∧
        m'.n_jobs = mLeaf31.n_jobs :=
  C2_load_dict_never_assigns_leaf_size.2 mLeaf31 ⟨8, 1, 0, false, false⟩ rfl

/-- Claim C10: `dump_dict` fails with the not-fitted assertion message exactly
when `_weight_quantizer` is `None`; otherwise it returns a mapping with exactly
the 21 keys, in source order.  (The embedded `dump_dict` is a pure reader of the
model, mirroring the Python method, which only reads attributes.) -/
theorem C10_dump_dict_guard_and_exact_keys :
    ∀ m : KNeighborsClassifierModel,
      (m._weight_quantizer = none →
        dump_dict m = .error ( _is_not_fitted_error_message m)) ∧
      (m._weight_quantizer ≠ none →
        ∃ md, dump_dict m = .ok md ∧ md.map Prod.fst =
          ["n_bits", "sklearn_model", "_is_fitted", "_is_compiled",
           "input_quantizers", "_weight_quantizer", "_q_X_fit_quantizer",
           "_q_X_fit", "output_quantizers", "onnx_model_",
           "post_processing_params", "cml_dumped_class_name",
           "sklearn_model_class", "n_neighbors", "algorithm", "weights",
           "leaf_size", "p", "metric", "metric_params", "n_jobs"]) := by
  intro m
  constructor
  · intro h
    unfold dump_dict
    rw [if_pos h]
  · intro h
    unfold dump_dict
    rw [if_neg h]
    exact ⟨_, rfl, rfl⟩

/-- Closed witness for C10: the unfitted default model fails with the assertion
message; the fitted model `mLeaf31` dumps exactly the 21 keys. -/
theorem C10_witness :
    dump_dict defaultKNeighborsClassifier =
      .error ( _is_not_fitted_error_message defaultKNeighborsClassifier) ∧
    ∃ md, dump_dict mLeaf31 = .ok md ∧ md.map Prod.fst =
      ["n_bits", "sklearn_model", "_is_fitted", "_is_compiled",
       "input_quantizers", "_weight_quantizer", "_q_X_fit_quantizer",
       "_q_X_fit", "output_quantizers", "onnx_model_",
       "post_processing_params", "cml_dumped_class_name",
       "sklearn_model_class", "n_neighbors", "algorithm", "weights",
       "leaf_size", "p", "metric", "metric_params", "n_jobs"] :=
  ⟨(C10_dump_dict_guard_and_exact_keys defaultKNeighborsClassifier).1 rfl,
   (C10_dump_dict_guard_and_exact_keys mLeaf31).2 (by simp [mLeaf31])⟩

theorem sqDist_self (a : List Int) : sqDist a a = 0 := by
  unfold sqDist
  induction a with
  | nil => rfl
  | cons v vs ih => simpa using ih

theorem sqDist_nonneg (a b : List Int) : 0 ≤ sqDist a b := by
  unfold sqDist
  apply List.sum_nonneg
  intro y hy
  simp only [List.mem_map] at hy
  obtain ⟨pr, -, rfl⟩ := hy
  positivity

theorem knnDistances_getD (m : KNeighborsClassifierModel) (x : List ℚ) (i : Nat)
    (hi : i < m._q_X_fit.length) :
    (knnDistances m x).getD i 0 =
      sqDist (m._q_X_fit.getD i []) (quantizeRow m.input_quantizers x) := by
  unfold knnDistances
  rw [List.getD_eq_getElem?_getD, List.getElem?_map, List.getD_eq_getElem?_getD,
    List.getElem?_eq_getElem hi]
  rfl

theorem topkIdx_selected_beats_unselected :
    ∀ (d : Nat → Int) (n k a b : Nat),
      a ∈ topkIdx d n k → b < n → b ∉ topkIdx d n k →
      d a < d b ∨ (d a = d b ∧ a < b) := by
  intro d n k a b ha hb hnb
  unfold topkIdx at ha hnb
  set s := List.insertionSort (distIdxLe d) (List.range n) with hs
  have hperm : List.Perm s (List.range n) := List.perm_insertionSort _ _
  have hsorted : List.Sorted (distIdxLe d) s := List.sorted_insertionSort _ _
  have hnodup : s.Nodup := (List.Perm.nodup_iff hperm).2 (List.nodup_range n)
  have hbs : b ∈ s := (List.Perm.mem_iff hperm).2 (List.mem_range.2 hb)
  have hbdrop : b ∈ s.drop k := by
    have hsplit : b ∈ s.take k ++ s.drop k := by
      rw [List.take_append_drop]
      exact hbs
    rcases List.mem_append.1 hsplit with h | h
    · exact absurd h hnb
    · exact h
  have hpw : List.Pairwise (distIdxLe d) (s.take k ++ s.drop k) := by
    rw [List.take_append_drop]
    exact hsorted
  have hr : distIdxLe d a b := (List.pairwise_append.1 hpw).2.2 a ha b hbdrop
  have hab : a ≠ b := by
    intro he
    have hnd2 : (s.take k ++ s.drop k).Nodup := by
      rw [List.take_append_drop]
      exact hnodup
    exact (List.nodup_append.1 hnd2).2.2 ha (he ▸ hbdrop)
  rcases hr with h | ⟨h1, h2⟩
  · exact .inl h
  · exact .inr ⟨h1, lt_of_le_of_ne h2 hab⟩

theorem topkIdx_head_of_first_zero :
    ∀ (d : Nat → Int) (n k j : Nat),
      j < n → 1 ≤ k → d j = 0 → (∀ i, i < j → 0 < d i) → (∀ i, i < n → 0 ≤ d i) →
      (topkIdx d n k).head? = some j := by
  intro d n k j hj hk hd0 hpos hnn
  unfold topkIdx
  have hperm := List.perm_insertionSort (distIdxLe d) (List.range n)
  have hsorted := List.sorted_insertionSort (distIdxLe d) (List.range n)
  revert hperm hsorted
  generalize List.insertionSort (distIdxLe d) (List.range n) = s
  intro hperm hsorted
  cases s with
  | nil =>
    have : j ∈ (List.range n) := List.mem_range.2 hj
    rw [← (List.Perm.mem_iff hperm)] at this
    exact absurd this (List.not_mem_nil j)
  | cons h t =>
    have hjs : j ∈ h :: t := (List.Perm.mem_iff hperm).2 (List.mem_range.2 hj)
    have hh : h = j := by
      rcases List.mem_cons.1 hjs with he | hjt
      · exact he.symm
      · have hr : distIdxLe d h j := (List.sorted_cons.1 hsorted).1 j hjt
        have hhn : h < n :=
          List.mem_range.1 ((List.Perm.mem_iff hperm).1 (List.mem_cons_self h t))
        have hh0 : 0 ≤ d h := hnn h hhn
        rcases hr with hlt | ⟨heq, hle⟩
        · rw [hd0] at hlt
          linarith
        · by_cases hhj : h = j
          · exact hhj
          · have hhltj : h < j := lt_of_le_of_ne hle hhj
            have := hpos h hhltj
            rw [hd0] at heq
            linarith
    rw [hh]
    cases k with
    | zero => omega
    | succ k' => rw [List.take_succ_cons]; rfl

/-- Claim C8 (amended): top-k selection over the quantized integer distances breaks
ties by original dataset order — every selected index beats every unselected one on
(distance, index), first occurrence winning — and querying a point identical
(post-quantization) to a training point makes the first such training row the
rank-1 neighbor, so its label is the top-1 vote.  (The majority vote over all
`n_neighbors` neighbors can still differ from that label, see the counterexample.) -/
theorem C8_amended_stable_topk_and_rank1 :
    (∀ (d : Nat → Int) (n k a b : Nat),
        a ∈ topkIdx d n k → b < n → b ∉ topkIdx d n k →
        d a < d b ∨ (d a = d b ∧ a < b)) ∧
    (∀ (m : KNeighborsClassifierModel) (x : List ℚ) (j : Nat),
        j < m._q_X_fit.length →
        m._q_X_fit.getD j [] = quantizeRow m.input_quantizers x →
        (∀ i, i < j → 0 < (knnDistances m x).getD i 0) →
        1 ≤ m.n_neighbors →
        (topkIdx (fun i => (knnDistances m x).getD i 0)
            m._q_X_fit.length m.n_neighbors).head? = some j ∧
        ((topkIdx (fun i => (knnDistances m x).getD i 0)
            m._q_X_fit.length m.n_neighbors).map
              (fun i => m.sklearn_model.y_labels.getD i 0)).head? =
          some (m.sklearn_model.y_labels.getD j 0)) := by
  constructor
  · exact topkIdx_selected_beats_unselected
  · intro m x j hj hrow hpos hk
    have hd0 : (knnDistances m x).getD j 0 = 0 := by
      rw [knnDistances_getD m x j hj, hrow]
      exact sqDist_self _
    have hnn : ∀ i, i < m._q_X_fit.length → 0 ≤ (knnDistances m x).getD i 0 := by
      intro i hi
      rw [knnDistances_getD m x i hi]
      exact sqDist_nonneg _ _
    have hhead := topkIdx_head_of_first_zero (fun i => (knnDistances m x).getD i 0)
      m._q_X_fit.length m.n_neighbors j hj hk hd0 hpos hnn
    refine ⟨hhead, ?_⟩
    rw [List.head?_map, hhead]
    rfl

/-- A fitted 4-class neighbor model with `n_neighbors = 5`: training point 0 sits
at the queried location with label 0 while the four next-nearest points carry
label 1 (labels 2 and 3 sit far away). -/
def mKNN : KNeighborsClassifierModel :=
  { defaultKNeighborsClassifier with
    _is_fitted := true,
    _weight_quantizer := some ⟨8, 1, 0, false, false⟩,
    input_quantizers := [⟨8, 1, 0, false, false⟩, ⟨8, 1, 0, false, false⟩],
    _q_X_fit := [[0, 0], [1, 0], [0, 1], [1, 1], [2, 0], [10, 10], [12, 0]],
    sklearn_model := ⟨[0, 1, 1, 1, 1, 2, 3]⟩,
    n_neighbors := 5 }

/-- Counterexample for C8: on `mKNN` the query `[0, 0]` is identical
(post-quantization) to training point 0, whose label is 0, yet the majority vote
over the 5 selected neighbors returns label 1 — the claim's "returns that
training point's label as the top vote" fails. -/
theorem C8_counterexample_majority_overrides_identical_point :
    mKNN._q_X_fit.getD 0 [] = quantizeRow mKNN.input_quantizers [0, 0] ∧
    mKNN.sklearn_model.y_labels.getD 0 99 = 0 ∧
    knnPredict mKNN [0, 0] = 1 := by
  refine ⟨?_, rfl, ?_⟩
  · with_unfolding_all rfl
  · with_unfolding_all rfl

/-- Closed witness for C8 (amended claim) at the concrete model `mKNN` and the
query `[0, 0]`: training point 0 is the rank-1 neighbor and its label the
top-1 vote. -/
theorem C8_witness :
    (topkIdx (fun i => (knnDistances mKNN [0, 0]).getD i 0)
        mKNN._q_X_fit.length mKNN.n_neighbors).head? = some 0 ∧
    ((topkIdx (fun i => (knnDistances mKNN [0, 0]).getD i 0)
        mKNN._q_X_fit.length mKNN.n_neighbors).map
          (fun i => mKNN.sklearn_model.y_labels.getD i 0)).head? =
      some (mKNN.sklearn_model.y_labels.getD 0 0) :=
  C8_amended_stable_topk_and_rank1.2 mKNN [0, 0] 0 (by decide)
    (by with_unfolding_all rfl) (fun i hi => absurd hi (Nat.not_lt_zero i))
    (by decide)

/-- Modelled from the spec: (section 4.4) the lifecycle states of a Model. -/
inductive ModelState where
  | UNFITTED
  | FITTED
  | CALIBRATED
  | COMPILED
  | READY
deriving DecidableEq

/-- Modelled from the spec: the fitted cleartext parameters of a linear-family
model (coefficient vector and intercept). -/
structure FittedParams where
  coefs : List ℚ
  intercept : ℚ
deriving DecidableEq

/-- Modelled from the spec: (section 4.3) the kinds of quantized operations of
the linear-family computation graph. -/
inductive OpKind where
  | affineOp
  | thresholdOp
  | argmaxOp
  | identityOp
deriving DecidableEq

/-- Modelled from the spec: (section 3) one quantized computation node: operation
kind, input references, output quantizer. -/
structure GraphNode where
  kind : OpKind
  inputs : List Nat
  out_quant : QuantizationParams
deriving DecidableEq

/-- Modelled from the spec: (section 3) the ordered DAG of quantized operations. -/
structure ComputationGraph where
  nodes : List GraphNode
deriving DecidableEq

/-- Modelled from the spec: (sections 3, 4.4) the Model aggregate: lifecycle
state, fitted cleartext parameters, quantizers and compiled graph. -/
structure Model where
  n_bits : Nat
  state : ModelState
  fitted_params : Option FittedParams
  input_quantizers : List QuantizationParams
  weight_quantizer : Option QuantizationParams
  graph : Option ComputationGraph
  output_quantizers : List QuantizationParams
deriving DecidableEq

/-- Modelled from the spec: (section 4.4) `fit` stores the externally fitted
parameters and discards any prior calibration and compiled graph. -/
def fitModel (m : Model) (fp : FittedParams) : Model :=
  { m with
    state := .FITTED, fitted_params := some fp, input_quantizers := [],
    weight_quantizer := none, graph := none, output_quantizers := [] }

/-- Column `f` of a calibration dataset (rows of rationals). -/
def column (X : List (List ℚ)) (f : Nat) : List ℚ := X.map fun row => row.getD f 0

/-- Modelled from the spec: (section 4.2) per-feature input calibration over the
columns of the calibration dataset. -/
def calibrateColumns (nbits : Nat) (cols : List (List ℚ)) :
    Except MLError (List QuantizationParams) :=
  match cols with
  | [] => .ok []
  | c :: rest =>
    match calibrate nbits false false c with
    | .error e => .error e
    | .ok qp =>
      match calibrateColumns nbits rest with
      | .error e => .error e
      | .ok qs => .ok (qp :: qs)

/-- The cleartext decision function of a linear-family model: dot product in a
wide accumulator plus the intercept. -/
def clearRow (fp : FittedParams) (row : List ℚ) : ℚ :=
  ((fp.coefs.zip row).map fun pr => pr.1 * pr.2).sum + fp.intercept

/-- Modelled from the spec: (section 4.3) the linear-family graph: one affine
node over the quantized inputs and weights, then the decision node. -/
def buildGraph (fp : FittedParams) (wq oq : QuantizationParams) : ComputationGraph :=
  ⟨[⟨.affineOp, List.range fp.coefs.length, wq⟩, ⟨.identityOp, [fp.coefs.length], oq⟩]⟩

/-- Modelled from the spec: (section 4.4) `compile` requires a fitted model, runs
the calibration procedure (per-feature inputs, signed weights, outputs) and the
graph builder, and stores the quantizers and graph; it reads only the fitted
parameters, `n_bits` and the calibration dataset. -/
def compileModel (m : Model) (X : List (List ℚ)) : Except MLError Model :=
  if m.state = .UNFITTED then .error .NotFittedError
  else
    match m.fitted_params with
    | none => .error .NotFittedError
    | some fp =>
      match calibrateColumns m.n_bits ((List.range (X.headD []).length).map (column X)) with
      | .error e => .error e
      | .ok iqs =>
        match calibrate m.n_bits true false fp.coefs with
        | .error e => .error e
        | .ok wq =>
          match calibrate m.n_bits true false (X.map (clearRow fp)) with
          | .error e => .error e
          | .ok oq =>
            .ok { m with
              state := .COMPILED, input_quantizers := iqs,
              weight_quantizer := some wq, output_quantizers := [oq],
              graph := some (buildGraph fp wq oq) }

/-- Modelled from the spec: (section 4.2) the quantized evaluation of one row on
the encrypted path: the affine combination of quantized inputs and quantized
weights carried in a wide integer accumulator, dequantized at the output. -/
def fheRow (iqs : List QuantizationParams) (wq : QuantizationParams)
    (fp : FittedParams) (row : List ℚ) : ℚ :=
  ((iqs.zip (row.zip fp.coefs)).map fun pr =>
    (((quantize pr.1 pr.2.1 - pr.1.zero_point) *
      (quantize wq pr.2.2 - wq.zero_point) : Int) : ℚ) *
      (pr.1.scale * wq.scale)).sum + fp.intercept

/-- Modelled from the spec: (section 4.4) `predict`: `NotFittedError` on an
UNFITTED model, `NotCompiledError` when encrypted execution is requested before
COMPILED, otherwise one output per input row; the model comes back unchanged
(`predict` is read-only). -/
def predictModel (m : Model) (X : List (List ℚ)) (execute_in_fhe : Bool) :
    Except MLError (List ℚ) × Model :=
  if m.state = .UNFITTED then (.error .NotFittedError, m)
  else if execute_in_fhe = true ∧ m.state ≠ .COMPILED ∧ m.state ≠ .READY then
    (.error .NotCompiledError, m)
  else
    match m.fitted_params with
    | none => (.error .NotFittedError, m)
    | some fp =>
      if execute_in_fhe then
        match m.weight_quantizer with
        | none => (.error .NotCompiledError, m)
        | some wq => (.ok (X.map (fheRow m.input_quantizers wq fp)), m)
      else (.ok (X.map (clearRow fp)), m)

/-- Claim C6: `predict(execute_in_fhe=True)` on a FITTED-but-not-COMPILED model
fails with `NotCompiledError`, and `predict` in any mode on an UNFITTED model
fails with `NotFittedError`; in both cases the model comes back unchanged. -/
theorem C6_predict_state_guards :
    ∀ (m : Model) (X : List (List ℚ)) (fhe : Bool),
      (m.state = .FITTED → predictModel m X true = (.error .NotCompiledError, m)) ∧
      (m.state = .UNFITTED → predictModel m X fhe = (.error .NotFittedError, m)) := by
  intro m X fhe
  constructor
  · intro h
    unfold predictModel
    rw [h]
    simp
  · intro h
    unfold predictModel
    rw [h]
    simp

/-- Closed witness for C6 at concrete FITTED and UNFITTED models. -/
theorem C6_witness :
    predictModel ⟨8, .FITTED, some ⟨[1], 0⟩, [], none, none, []⟩ [[1]] true =
      (.error .NotCompiledError, ⟨8, .FITTED, some ⟨[1], 0⟩, [], none, none, []⟩) ∧
    predictModel ⟨8, .UNFITTED, none, [], none, none, []⟩ [[1]] false =
      (.error .NotFittedError, ⟨8, .UNFITTED, none, [], none, none, []⟩) :=
  ⟨(C6_predict_state_guards ⟨8, .FITTED, some ⟨[1], 0⟩, [], none, none, []⟩ [[1]] true).1 rfl,
   (C6_predict_state_guards ⟨8, .UNFITTED, none, [], none, none, []⟩ [[1]] false).2 rfl⟩

/-- Claim C7: `compile` is idempotent given the same model state and calibration
dataset: after a successful compile, compiling again with the same dataset
succeeds and produces an identical graph and identical quantizer parameters. -/
theorem C7_compile_idempotent :
    ∀ (m m1 : Model) (X : List (List ℚ)),
      compileModel m X = .ok m1 →
      ∃ m2, compileModel m1 X = .ok m2 ∧ m2.graph = m1.graph ∧
        m2.input_quantizers = m1.input_quantizers ∧
        m2.weight_quantizer = m1.weight_quantizer ∧
        m2.output_quantizers = m1.output_quantizers := by
  intro m m1 X h
  unfold compileModel at h ⊢
  by_cases hs : m.state = .UNFITTED
  · rw [if_pos hs] at h
    exact absurd h (by simp)
  rw [if_neg hs] at h
  cases hfp : m.fitted_params with
  | none =>
    rw [hfp] at h
    exact absurd h (by simp)
  | some fp =>
    rw [hfp] at h
    dsimp only at h
    cases hiq : calibrateColumns m.n_bits ((List.range (X.headD []).length).map (column X)) with
    | error e =>
      rw [hiq] at h
      exact absurd h (by simp)
    | ok iqs =>
      rw [hiq] at h
      dsimp only at h
      cases hwq : calibrate m.n_bits true false fp.coefs with
      | error e =>
        rw [hwq] at h
        exact absurd h (by simp)
      | ok wq =>
        rw [hwq] at h
        dsimp only at h
        cases hoq : calibrate m.n_bits true false (X.map (clearRow fp)) with
        | error e =>
          rw [hoq] at h
          exact absurd h (by simp)
        | ok oq =>
          rw [hoq] at h
          dsimp only at h
          injection h with h
          subst h
          rw [if_neg (by simp)]
          dsimp only
          rw [hiq, hwq, hoq]
          exact ⟨_, rfl, rfl, rfl, rfl, rfl⟩

/-- A fitted two-feature linear model awaiting compilation. -/
def mLin0 : Model := ⟨2, .FITTED, some ⟨[0, 0], 0⟩, [], none, none, []⟩

/-- A tiny calibration dataset for `mLin0`. -/
def XLin : List (List ℚ) := [[0, 0], [0, 0]]

/-- The result of compiling `mLin0` on `XLin`. -/
def mLin1 : Model :=
  ⟨2, .COMPILED, some ⟨[0, 0], 0⟩, [⟨2, 1, 0, false, false⟩, ⟨2, 1, 0, false, false⟩],
    some ⟨2, 1, -2, true, false⟩,
    some (buildGraph ⟨[0, 0], 0⟩ ⟨2, 1, -2, true, false⟩ ⟨2, 1, -2, true, false⟩),
    [⟨2, 1, -2, true, false⟩]⟩

/-- Closed witness for C7: recompiling the concretely compiled `mLin1` on the
same dataset reproduces its graph and quantizers. -/
theorem C7_witness :
    ∃ m2, compileModel mLin1 XLin = .ok m2 ∧ m2.graph = mLin1.graph ∧
      m2.input_quantizers = mLin1.input_quantizers ∧
      m2.weight_quantizer = mLin1.weight_quantizer ∧
      m2.output_quantizers = mLin1.output_quantizers :=
  C7_compile_idempotent mLin0 mLin1 XLin (by with_unfolding_all rfl)

theorem calibrate_replicate (b : Nat) (sgn sym : Bool) (x : ℚ) (n : Nat)
    (hb1 : 1 ≤ b) (hb2 : b ≤ 32) :
    calibrate b sgn sym (List.replicate (n + 1) x) =
      .ok ⟨b, 1, (if sgn then -(2 ^ (b - 1) : Int) else 0) - round x, sgn, sym⟩ := by
  unfold calibrate
  rw [if_neg (by simp)]
  rw [if_neg (by simp only [Bool.or_eq_true, decide_eq_true_eq, not_or]; omega)]
  have hne : List.replicate (n + 1) x ≠ [] := by simp
  have hall : ∀ y ∈ List.replicate (n + 1) x, y = x := fun y hy =>
    List.eq_of_mem_replicate hy
  simp only [listMin_const hne hall, listMax_const hne hall, if_pos rfl, if_true, div_one]

theorem calibrateColumns_replicate (nbits : Nat) (c : List ℚ) (qp : QuantizationParams)
    (h : calibrate nbits false false c = .ok qp) :
    ∀ k, calibrateColumns nbits (List.replicate k c) = .ok (List.replicate k qp) := by
  intro k
  induction k with
  | zero => rfl
  | succ k ih =>
    rw [List.replicate_succ, List.replicate_succ]
    unfold calibrateColumns
    rw [h, ih]

theorem replicate_getD_zero (nfeat f : Nat) : (List.replicate nfeat (0:ℚ)).getD f 0 = 0 := by
  rw [List.getD_eq_getElem?_getD, List.getElem?_replicate]
  split <;> rfl

/-- The fitted parameters of the 10-feature regression model of the C9 scenario. -/
def fpReg : FittedParams := ⟨List.replicate 10 (0:ℚ), 0⟩

/-- The fitted 10-feature linear model of the C9 scenario. -/
def mReg : Model := ⟨8, .FITTED, some fpReg, [], none, none, []⟩

/-- The 200-sample, 10-feature calibration dataset of the C9 scenario. -/
def XReg : List (List ℚ) := List.replicate 200 (List.replicate 10 (0:ℚ))

/-- The input quantizer calibrated from each (degenerate) column of `XReg`. -/
def qpRegIn : QuantizationParams := ⟨8, 1, 0, false, false⟩

/-- The signed quantizer calibrated from the (degenerate) weights and outputs. -/
def qpRegW : QuantizationParams := ⟨8, 1, -128, true, false⟩

/-- The result of compiling `mReg` on `XReg`. -/
def mRegC : Model :=
  ⟨8, .COMPILED, some fpReg, List.replicate 10 qpRegIn, some qpRegW,
    some (buildGraph fpReg qpRegW qpRegW), [qpRegW]⟩

theorem compile_mReg : compileModel mReg XReg = .ok mRegC := by
  have hcol : (List.range (XReg.headD []).length).map (column XReg) =
      List.replicate 10 (List.replicate 200 (0:ℚ)) := by
    refine List.eq_replicate_iff.2 ⟨by simp [XReg], ?_⟩
    intro c hc
    simp only [List.mem_map] at hc
    obtain ⟨f, -, rfl⟩ := hc
    unfold column XReg
    rw [List.map_replicate, replicate_getD_zero]
  have hcal0 : calibrate 8 false false (List.replicate 200 (0:ℚ)) = .ok qpRegIn := by
    have h := calibrate_replicate 8 false false 0 199 (by norm_num) (by norm_num)
    norm_num at h
    exact h
  have hcalW : calibrate 8 true false (List.replicate 200 (0:ℚ)) = .ok qpRegW := by
    have h := calibrate_replicate 8 true false 0 199 (by norm_num) (by norm_num)
    norm_num at h
    exact h
  have hcalC : calibrate 8 true false (List.replicate 10 (0:ℚ)) = .ok qpRegW := by
    have h := calibrate_replicate 8 true false 0 9 (by norm_num) (by norm_num)
    norm_num at h
    exact h
  have hclear : clearRow fpReg (List.replicate 10 (0:ℚ)) = 0 := by
    with_unfolding_all rfl
  have houts : XReg.map (clearRow fpReg) = List.replicate 200 (0:ℚ) := by
    unfold XReg
    rw [List.map_replicate, hclear]
  unfold compileModel
  rw [if_neg (by simp [mReg])]
  rw [show mReg.fitted_params = some fpReg from rfl]
  dsimp only
  rw [show mReg.n_bits = 8 from rfl, hcol,
    calibrateColumns_replicate 8 (List.replicate 200 (0:ℚ)) qpRegIn hcal0 10]
  dsimp only
  rw [show fpReg.coefs = List.replicate 10 (0:ℚ) from rfl, hcalC]
  dsimp only
  rw [houts, hcalW]
  rfl

theorem compileModel_ok_state :
    ∀ (m m1 : Model) (X : List (List ℚ)),
      compileModel m X = .ok m1 →
      ∃ fp wq, m1.state = .COMPILED ∧ m1.fitted_params = some fp ∧
        m1.weight_quantizer = some wq := by
  intro m m1 X h
  unfold compileModel at h
  by_cases hs : m.state = .UNFITTED
  · rw [if_pos hs] at h
    exact absurd h (by simp)
  rw [if_neg hs] at h
  cases hfp : m.fitted_params with
  | none =>
    rw [hfp] at h
    exact absurd h (by simp)
  | some fp =>
    rw [hfp] at h
    dsimp only at h
    cases hiq : calibrateColumns m.n_bits ((List.range (X.headD []).length).map (column X)) with
    | error e =>
      rw [hiq] at h
      exact absurd h (by simp)
    | ok iqs =>
      rw [hiq] at h
      dsimp only at h
      cases hwq : calibrate m.n_bits true false fp.coefs with
      | error e =>
        rw [hwq] at h
        exact absurd h (by simp)
      | ok wq =>
        rw [hwq] at h
        dsimp only at h
        cases hoq : calibrate m.n_bits true false (X.map (clearRow fp)) with
        | error e =>
          rw [hoq] at h
          exact absurd h (by simp)
        | ok oq =>
          rw [hoq] at h
          dsimp only at h
          injection h with h
          subst h
          exact ⟨fp, wq, rfl, rfl, rfl⟩

/-- Claim C9: for a linear model fitted on a 200-sample, 10-feature regression
dataset and compiled on that training set, predicting a single row with
`execute_in_fhe = true` returns one prediction — an output of shape `(1,)` —
whose shape equals that of the cleartext-simulation prediction for the row. -/
theorem C9_single_row_fhe_prediction_shape :
    ∀ (m m1 : Model) (X : List (List ℚ)) (x : List ℚ),
      X.length = 200 → (∀ row ∈ X, row.length = 10) →
      compileModel m X = .ok m1 →
      ∃ yf yc, (predictModel m1 [x] true).1 = .ok yf ∧
        (predictModel m1 [x] false).1 = .ok yc ∧
        yf.length = 1 ∧ yf.length = yc.length := by
  intro m m1 X x h200 h10 hc
  obtain ⟨fp, wq, hst, hfp, hwq⟩ := compileModel_ok_state m m1 X hc
  refine ⟨[fheRow m1.input_quantizers wq fp x], [clearRow fp x], ?_, ?_, rfl, rfl⟩
  · unfold predictModel
    rw [hst, hfp, hwq]
    rw [if_neg (by decide), if_neg (by decide)]
    dsimp only
    rfl
  · unfold predictModel
    rw [hst, hfp]
    rw [if_neg (by decide), if_neg (by decide)]
    dsimp only
    rfl

/-- Closed witness for C9: the concrete compiled model `mRegC` (200-sample,
10-feature, all-zero scenario) predicts one row in both modes with shape (1,). -/
theorem C9_witness :
    ∃ yf yc, (predictModel mRegC [List.replicate 10 (0:ℚ)] true).1 = .ok yf ∧
      (predictModel mRegC [List.replicate 10 (0:ℚ)] false).1 = .ok yc ∧
      yf.length = 1 ∧ yf.length = yc.length :=
  C9_single_row_fhe_prediction_shape mReg mRegC XReg (List.replicate 10 (0:ℚ))
    (by unfold XReg; simp only [List.length_replicate])
    (fun row hr => by
      have hr2 : row ∈ List.replicate 200 (List.replicate 10 (0:ℚ)) := by
        unfold XReg at hr
        exact hr
      rw [List.eq_of_mem_replicate hr2]
      simp only [List.length_replicate])
    compile_mReg
